import Mathlib

/-!
# Shallow embedding of the order-processing core

Source: `Knohhon/pad_application_developing` — the Lab_2-4 repositories
(`order_repository.py`, `product_repository.py`, `address_repository.py`),
the `user_service.py` service layer, the Lab_2-5 `user_repository.py`,
the pydantic schemas (`schemas/product.py`, `schemas/address.py`,
`schemas/user.py`) and the session provider of `Lab_2-5/app/main.py`.

Modelling conventions:
* UUIDs are modelled as `Nat`.
* Integer columns (`count_in_warehouse`, `quantity`, `count_in_package`)
  are `Int`, as in Python.
* `price` / `unit_price` are stored in a `Numeric(10,2)` column, i.e. an
  exact multiple of 0.01; stored prices are modelled in cents (`Int`).
  Decimal values entering the store (float/str/Decimal representations)
  are modelled by `Dec` (a mantissa and a decimal exponent), and
  `Decimal.quantize(Decimal('0.01'))` — whose default rounding mode is
  ROUND_HALF_EVEN — is modelled by `quantize2`.
* `created_at` / `updated_at` timestamps are not modelled: no claim
  mentions them.
* A SQLAlchemy `AsyncSession` accumulates uncommitted changes; only
  `session.commit()` publishes them, and the provider
  `provide_db_session` rolls the session back when the repository raises.
  Repository functions therefore return `Except`; the transaction
  wrappers (`run...`) return the original datastore on error.
* `session.get(Entity, id)` goes through the identity map: there is one
  live object per primary key, so a lookup after an in-session mutation
  sees the mutated value.  Collections are modelled as lists keyed by
  `id`; a point lookup is `find?` on the key and a point mutation
  rewrites the first (identity-mapped) match.
-/

/-- A decimal number `m · 10^(-e)`, as produced by `Decimal(str(v))` from a
float, string or `Decimal` input. -/
structure Dec where
  m : Int
  e : Nat
  deriving Repr, DecidableEq

/-- Round `n / d` to an integer with round-half-even (banker's) rounding,
`d > 0`.  `n / d` and `n % d` are Lean's floor division/modulus, so
`0 ≤ r < d` and the midpoint test `2r = d` is sign-correct. -/
def roundHalfEven (n : Int) (d : Int) : Int :=
  let q := n / d
  let r := n % d
  if 2 * r < d then q
  else if 2 * r > d then q + 1
  else if q % 2 = 0 then q else q + 1

/-- `Decimal(str(v)).quantize(Decimal('0.01'))` (default rounding
ROUND_HALF_EVEN), returning the result in cents. -/
def quantize2 (x : Dec) : Int :=
  if x.e ≤ 2 then x.m * (10 : Int) ^ (2 - x.e)
  else roundHalfEven x.m ((10 : Int) ^ (x.e - 2))

/-- `v <= 0` on the decimal input (`10^e > 0`, so the sign is the sign of
the mantissa). -/
def Dec.nonpos (x : Dec) : Bool := x.m ≤ 0

/-- `v > 1000000` on the decimal input. -/
def Dec.gtMillion (x : Dec) : Bool := 1000000 * (10 : Int) ^ x.e < x.m

/-- `app/models/database_models.py` — `User`. -/
structure User where
  id : Nat
  username : String
  email : String
  description : Option String
  deriving Repr, DecidableEq

/-- `app/models/database_models.py` — `Address`. -/
structure Address where
  id : Nat
  user_id : Nat
  street : String
  city : String
  state : Option String
  zip_code : String
  country : String
  is_primary : Bool
  deriving Repr, DecidableEq

/-- `app/models/database_models.py` — `Product` (price in cents). -/
structure Product where
  id : Nat
  label : String
  count_in_package : Int
  count_in_warehouse : Int
  price : Int
  deriving Repr, DecidableEq

/-- `app/models/database_models.py` — `OrderItem` (composite key
`(order_id, product_id)`; `unit_price` in cents). -/
structure OrderItem where
  order_id : Nat
  product_id : Nat
  quantity : Int
  unit_price : Int
  deriving Repr, DecidableEq

/-- `app/models/database_models.py` — `Order` (the stored header row;
items live in `order_items` keyed by `order_id`). -/
structure Order where
  id : Nat
  user_id : Nat
  address_id : Nat
  deriving Repr, DecidableEq

/-- The committed state of the datastore. -/
structure DB where
  users : List User
  addresses : List Address
  products : List Product
  orders : List Order
  order_items : List OrderItem
  deriving Repr, DecidableEq

instance {ε α : Type} [DecidableEq ε] [DecidableEq α] :
    DecidableEq (Except ε α) := fun a b =>
  match a, b with
  | .error e1, .error e2 =>
    if h : e1 = e2 then .isTrue (by rw [h])
    else .isFalse (fun hc => h (by cases hc; rfl))
  | .ok v1, .ok v2 =>
    if h : v1 = v2 then .isTrue (by rw [h])
    else .isFalse (fun hc => h (by cases hc; rfl))
  | .error _, .ok _ => .isFalse (fun hc => by cases hc)
  | .ok _, .error _ => .isFalse (fun hc => by cases hc)

/-- `session.get`-style point lookup: the row whose primary key is `k`. -/
def findByKey {α : Type} (key : α → Nat) (l : List α) (k : Nat) : Option α :=
  l.find? (fun a => key a == k)

/-- Mutation of the identity-mapped object for key `k`: there is one live
object per primary key, so the first match is rewritten. -/
def setByKey {α : Type} (key : α → Nat) (l : List α) (k : Nat) (f : α → α) :
    List α :=
  match l with
  | [] => []
  | a :: rest =>
    if key a == k then f a :: rest else a :: setByKey key rest k f

/-- `session.get(Product, pid)` / `SELECT ... WHERE id = pid`. -/
def findProduct (ps : List Product) (pid : Nat) : Option Product :=
  findByKey Product.id ps pid

/-- Mutation of the identity-mapped product for key `pid`. -/
def setProduct (ps : List Product) (pid : Nat) (f : Product → Product) :
    List Product :=
  setByKey Product.id ps pid f

/-- `app/schemas/order.py` — `OrderItemCreate`. -/
structure OrderItemCreate where
  product_id : Nat
  quantity : Int
  deriving Repr, DecidableEq

/-- `app/schemas/order.py` — `OrderCreate`. -/
structure OrderCreate where
  user_id : Nat
  address_id : Nat
  items : List OrderItemCreate
  deriving Repr, DecidableEq

/-- The two `ValueError`s raised inside `OrderRepository.create`:
`f"Product {item.product_id} not found"` and
`f"Not enough stock for {product.label}. Available: ..., Requested: ..."`. -/
inductive OrderErr where
  | productNotFound (product_id : Nat)
  | insufficientStock (label : String) (available : Int) (requested : Int)
  deriving Repr, DecidableEq

/-- Steps 3.1–3.5 of `OrderRepository.create`, iterated over
`order_data.items` in input order.  The products list is the session
state: a decrement made for an earlier line is visible to the stock
check of a later line through the identity map. -/
def createOrderLoop (prods : List Product) (orderId : Nat)
    (items : List OrderItemCreate) (acc : List OrderItem) (total : Int) :
    Except OrderErr (List Product × List OrderItem × Int) :=
  match items with
  | [] => .ok (prods, acc, total)
  | item :: rest =>
    match findProduct prods item.product_id with
    | none => .error (.productNotFound item.product_id)
    | some product =>
      if product.count_in_warehouse < item.quantity then
        .error (.insufficientStock product.label
          product.count_in_warehouse item.quantity)
      else
        createOrderLoop
          (setProduct prods item.product_id
            (fun p => { p with
              count_in_warehouse := p.count_in_warehouse - item.quantity }))
          orderId rest
          (acc ++ [{ order_id := orderId, product_id := item.product_id,
                     quantity := item.quantity, unit_price := product.price }])
          (total + product.price * item.quantity)

/-- `OrderRepository.create`: the order header is added to the session up
front (`flush` assigns `new_order.id = newId` without committing); the
item loop runs; `session.commit()` at the end publishes the header, the
items and the stock decrements together.  An error escapes before the
commit. -/
def orderRepositoryCreate (db : DB) (newId : Nat) (oc : OrderCreate) :
    Except OrderErr DB :=
  match createOrderLoop db.products newId oc.items [] 0 with
  | .error e => .error e
  | .ok (ps, its, _total) =>
    .ok { db with
      products := ps,
      orders := db.orders ++ [{ id := newId, user_id := oc.user_id,
                                address_id := oc.address_id }],
      order_items := db.order_items ++ its }

/-- `provide_db_session` (`Lab_2-5/app/main.py`): an exception raised by
the repository triggers `session.rollback()`, discarding every pending
change, and the committed datastore is the pre-call one. -/
def runCreateOrder (db : DB) (newId : Nat) (oc : OrderCreate) :
    DB × Option OrderErr :=
  match orderRepositoryCreate db newId oc with
  | .error e => (db, some e)
  | .ok db2 => (db2, none)

/-- The generic transaction wrapper of `provide_db_session` for the
repositories that raise `ValueError` (modelled as `Except String`):
on an exception the session is rolled back and the committed datastore
is unchanged. -/
def runTxn (db : DB) (r : Except String DB) : DB × Option String :=
  match r with
  | .error e => (db, some e)
  | .ok db2 => (db2, none)

/-- Raw input to the `ProductCreate` schema (`app/schemas/product.py`).
`count_in_warehouse` has pydantic default `0`; `price` is the incoming
float/str/Decimal representation. -/
structure ProductCreateData where
  label : String
  count_in_package : Int
  count_in_warehouse : Int := 0
  price : Dec
  deriving Repr, DecidableEq

/-- `ProductCreate` after its field validators ran: the label is
stripped and the price is quantized to cents. -/
structure ProductBaseV where
  label : String
  count_in_package : Int
  count_in_warehouse : Int
  price : Int
  deriving Repr, DecidableEq

/-- Python's `str.strip()`: drop leading and trailing whitespace
(structurally recursive on the character list, unlike `String.trim`). -/
def pyStrip (s : String) : String :=
  ⟨((s.data.dropWhile Char.isWhitespace).reverse.dropWhile
      Char.isWhitespace).reverse⟩

/-- The four `field_validator`s of `ProductBase` / `ProductCreate`
(`validate_label`, `validate_package_count`, `validate_warehouse_count`,
`validate_price`).  Any failing validator raises, i.e. the whole parse
errors. -/
def validateProductCreate (d : ProductCreateData) :
    Except String ProductBaseV :=
  let stripped := pyStrip d.label
  if stripped.length < 3 then .error "Label must be at least 3 characters"
  else if stripped.length > 100 then
    .error "Label cannot exceed 100 characters"
  else if d.count_in_package < 1 then
    .error "Count in package must be at least 1"
  else if d.count_in_package > 10000 then
    .error "Count in package cannot exceed 10,000"
  else if d.count_in_warehouse < 0 then
    .error "Warehouse count cannot be negative"
  else if d.price.nonpos then .error "Price must be greater than zero"
  else if d.price.gtMillion then .error "Price cannot exceed 1,000,000"
  else .ok { label := stripped, count_in_package := d.count_in_package,
             count_in_warehouse := d.count_in_warehouse,
             price := quantize2 d.price }

/-- Raw input to the `ProductUpdate` schema: every field optional,
`none` meaning "leave unchanged". -/
structure ProductUpdateData where
  label : Option String := none
  count_in_package : Option Int := none
  count_in_warehouse : Option Int := none
  price : Option Dec := none
  deriving Repr, DecidableEq

/-- `ProductUpdate` after validation (price already in cents). -/
structure ProductUpdateV where
  label : Option String
  count_in_package : Option Int
  count_in_warehouse : Option Int
  price : Option Int
  deriving Repr, DecidableEq

/-- The `ProductUpdate` field validators: each runs only on a present
field. -/
def validateProductUpdate (d : ProductUpdateData) :
    Except String ProductUpdateV :=
  match d.label with
  | some v =>
    let stripped := pyStrip v
    if stripped.length < 3 then .error "Label must be at least 3 characters"
    else if stripped.length > 100 then
      .error "Label cannot exceed 100 characters"
    else validateProductUpdateRest d (some stripped)
  | none => validateProductUpdateRest d none
where
  validateProductUpdateRest (d : ProductUpdateData)
      (label : Option String) : Except String ProductUpdateV :=
    if d.count_in_package.any (fun v => v < 1) then
      .error "Count in package must be at least 1"
    else if d.count_in_package.any (fun v => v > 10000) then
      .error "Count in package cannot exceed 10,000"
    else if d.count_in_warehouse.any (fun v => v < 0) then
      .error "Warehouse count cannot be negative"
    else if d.price.any Dec.nonpos then
      .error "Price must be greater than zero"
    else if d.price.any Dec.gtMillion then
      .error "Price cannot exceed 1,000,000"
    else
      .ok { label := label, count_in_package := d.count_in_package,
            count_in_warehouse := d.count_in_warehouse,
            price := d.price.map quantize2 }

/-- `ProductRepository.create`: re-checks `price <= 0` on the validated
schema value, re-quantizes the price (`Decimal(str(price)).quantize`),
inserts the row with a fresh UUID and commits. -/
def productRepositoryCreate (db : DB) (newId : Nat) (pd : ProductBaseV) :
    Except String DB :=
  if pd.price ≤ 0 then .error "Product price must be greater than zero"
  else
    .ok { db with products := db.products ++
      [{ id := newId, label := pd.label,
         count_in_package := pd.count_in_package,
         count_in_warehouse := pd.count_in_warehouse,
         price := quantize2 { m := pd.price, e := 2 } }] }

/-- The `setattr` loop of `ProductRepository.update`: apply exactly the
fields present (non-`None`) in the dumped update data. -/
def applyProductUpdate (pu : ProductUpdateV) (p : Product) : Product :=
  { p with
    label := pu.label.getD p.label,
    count_in_package := pu.count_in_package.getD p.count_in_package,
    count_in_warehouse := pu.count_in_warehouse.getD p.count_in_warehouse,
    price := pu.price.getD p.price }

/-- `ProductRepository.update`: point lookup, `price <= 0` re-check and
re-quantization when a price is present, then the `setattr` loop over
non-`None` fields, then commit. -/
def productRepositoryUpdate (db : DB) (pid : Nat) (pu : ProductUpdateV) :
    Except String DB :=
  match findProduct db.products pid with
  | none => .error ("Product with id " ++ toString pid ++ " not found")
  | some _ =>
    match pu.price with
    | some c =>
      if c ≤ 0 then .error "Product price must be greater than zero"
      else
        let requantized : ProductUpdateV :=
          { pu with price := some (quantize2 { m := c, e := 2 }) }
        .ok { db with
          products := setProduct db.products pid (applyProductUpdate requantized) }
    | none =>
      .ok { db with
        products := setProduct db.products pid (applyProductUpdate pu) }

/-- `ProductRepository.update_stock`: read the current count, reject a
change that would make it negative, otherwise write the new level. -/
def productRepositoryUpdateStock (db : DB) (pid : Nat)
    (quantity_change : Int) : Except String DB :=
  match findProduct db.products pid with
  | none => .error ("Product with id " ++ toString pid ++ " not found")
  | some product =>
    let current := product.count_in_warehouse
    let new_stock := current + quantity_change
    if new_stock < 0 then
      .error ("Insufficient stock. Current stock: " ++ toString current ++
        ", Requested change: " ++ toString quantity_change)
    else
      .ok { db with
        products := setProduct db.products pid (fun p => { p with count_in_warehouse := new_stock }) }

/-- `ProductRepository.delete`: reject when any `OrderItem` references
the product, otherwise delete the row. -/
def productRepositoryDelete (db : DB) (pid : Nat) : Except String DB :=
  match findProduct db.products pid with
  | none => .error ("Product with id " ++ toString pid ++ " not found")
  | some _ =>
    if db.order_items.any (fun it => it.product_id == pid) then
      .error ("Cannot delete product that is referenced in existing orders." ++
        " Consider archiving instead.")
    else
      .ok { db with products := db.products.filter (fun p => p.id != pid) }

/-- `AddressCreate` (`app/schemas/address.py`): the data handed to
`AddressRepository.create`.  The string-trimming field validators are
not modelled (no claim depends on them); `is_primary` has pydantic
default `False`. -/
structure AddressCreateData where
  user_id : Nat
  street : String
  city : String
  state : Option String := none
  zip_code : String
  country : String
  is_primary : Bool := false
  deriving Repr, DecidableEq

/-- `AddressUpdate`: every field optional; there is no `user_id` field,
so an update can never move an address to another user. -/
structure AddressUpdateData where
  street : Option String := none
  city : Option String := none
  state : Option String := none
  zip_code : Option String := none
  country : Option String := none
  is_primary : Option Bool := none
  deriving Repr, DecidableEq

/-- The bulk statement
`UPDATE addresses SET is_primary = false WHERE user_id = :uid AND is_primary`
(optionally excluding one address id), shared by `AddressRepository.create`
and `AddressRepository.update`. -/
def clearOtherPrimaries (addrs : List Address) (uid : Nat)
    (excluded : Option Nat) : List Address :=
  addrs.map (fun a =>
    if a.user_id == uid && a.is_primary && excluded.all (fun e => a.id != e)
    then { a with is_primary := false } else a)

/-- `session.get`-style point lookup for addresses. -/
def findAddress (addrs : List Address) (aid : Nat) : Option Address :=
  findByKey Address.id addrs aid

/-- Mutation of the identity-mapped address for key `aid`. -/
def setAddress (addrs : List Address) (aid : Nat) (f : Address → Address) :
    List Address :=
  setByKey Address.id addrs aid f

/-- `AddressRepository.create`: when the new address is primary, first
clear `is_primary` on every primary address of the same user, then
insert the new row; both writes commit together. -/
def addressRepositoryCreate (db : DB) (newId : Nat)
    (ad : AddressCreateData) : DB :=
  let addrs :=
    if ad.is_primary then clearOtherPrimaries db.addresses ad.user_id none
    else db.addresses
  { db with addresses := addrs ++
    [{ id := newId, user_id := ad.user_id, street := ad.street,
       city := ad.city, state := ad.state, zip_code := ad.zip_code,
       country := ad.country, is_primary := ad.is_primary }] }

/-- The `setattr` loop of `AddressRepository.update` over the non-`None`
fields of the dumped update data. -/
def applyAddressUpdate (au : AddressUpdateData) (a : Address) : Address :=
  { a with
    street := au.street.getD a.street,
    city := au.city.getD a.city,
    state := match au.state with | some v => some v | none => a.state,
    zip_code := au.zip_code.getD a.zip_code,
    country := au.country.getD a.country,
    is_primary := au.is_primary.getD a.is_primary }

/-- `AddressRepository.update`: point lookup; when the update sets
`is_primary` to a truthy value, clear every other primary address of the
(current) owner, excluding the address being written; then the `setattr`
loop; commit. -/
def addressRepositoryUpdate (db : DB) (aid : Nat)
    (au : AddressUpdateData) : Except String DB :=
  match findAddress db.addresses aid with
  | none => .error ("Address with id " ++ toString aid ++ " not found")
  | some address =>
    let cleared :=
      if au.is_primary == some true then
        clearOtherPrimaries db.addresses address.user_id (some aid)
      else db.addresses
    .ok { db with
      addresses := setAddress cleared aid (applyAddressUpdate au) }

/-- `AddressRepository.delete`: reject when any `Order` references the
address, otherwise delete the row. -/
def addressRepositoryDelete (db : DB) (aid : Nat) : Except String DB :=
  match findAddress db.addresses aid with
  | none => .error ("Address with id " ++ toString aid ++ " not found")
  | some _ =>
    let order_count := (db.orders.filter (fun o => o.address_id == aid)).length
    if order_count > 0 then
      .error "Cannot delete address that is used in existing orders"
    else
      .ok { db with addresses := db.addresses.filter (fun a => a.id != aid) }

/-- Modelled from the spec: `Lab_2-4/app/schemas/user.py` (the `UserUpdate`
schema imported by `user_service.py`) is not among the source files.  The
service guards `hasattr(user_data, 'email') and user_data.email is not None`,
and the spec says a user update payload may attempt to change the email
and must be rejected (`ImmutableField`), so the payload is modelled with
optional `username`, `description` and `email` fields, `none` meaning
"leave unchanged". -/
structure UserUpdateData where
  username : Option String := none
  description : Option String := none
  email : Option String := none
  deriving Repr, DecidableEq

/-- Modelled from the spec: the `UserUpdate` schema validator (as in the
sibling `project/app/schemas/user.py`): a present username shorter than
3 characters fails schema validation before the service is reached. -/
def validateUserUpdate (ud : UserUpdateData) :
    Except String UserUpdateData :=
  if ud.username.any (fun v => v.length < 3) then
    .error "Username must be at least 3 characters"
  else .ok ud

/-- `session.get`-style point lookup for users. -/
def findUser (users : List User) (uid : Nat) : Option User :=
  findByKey User.id users uid

/-- Mutation of the identity-mapped user for key `uid`. -/
def setUser (users : List User) (uid : Nat) (f : User → User) :
    List User :=
  setByKey User.id users uid f

/-- `UserRepository.update` (`Lab_2-5`): point lookup, then the
`setattr` loop over the non-`None` dumped fields (it would apply an
email too — the service guard is what keeps email immutable). -/
def userRepositoryUpdate (db : DB) (uid : Nat) (ud : UserUpdateData) :
    Except String DB :=
  match findUser db.users uid with
  | none => .error ("User with id " ++ toString uid ++ " not found")
  | some _ =>
    .ok { db with users := setUser db.users uid (fun u =>
      { u with
        username := ud.username.getD u.username,
        email := ud.email.getD u.email,
        description := match ud.description with
          | some d => some d
          | none => u.description }) }

/-- The Python truthiness guard
`if user_data.username and len(user_data.username) < 3` of
`UserService.update`: `None` and the empty string are falsy. -/
def usernameTooShort (username : Option String) : Bool :=
  match username with
  | some u => u != "" && u.length < 3
  | none => false

/-- `UserService.update`: username length rule, then the email
immutability rule, then delegation to the repository. -/
def userServiceUpdate (db : DB) (uid : Nat) (ud : UserUpdateData) :
    Except String DB :=
  if usernameTooShort ud.username then
    .error "Username must be at least 3 characters long"
  else if ud.email.isSome then
    .error "Email cannot be changed after registration"
  else userRepositoryUpdate db uid ud

/-- The full update pipeline a caller goes through: schema validation,
then the service inside the session provider. -/
def runUserUpdate (db : DB) (uid : Nat) (ud : UserUpdateData) :
    DB × Option String :=
  match validateUserUpdate ud with
  | .error e => (db, some e)
  | .ok okd => runTxn db (userServiceUpdate db uid okd)

/-- `UserService.delete`: reject when the user owns any order
(`any(order for order in user.orders)`), otherwise delegate to
`UserRepository.delete`. -/
def userServiceDelete (db : DB) (uid : Nat) : Except String DB :=
  match findUser db.users uid with
  | none => .error ("User with id " ++ toString uid ++ " not found")
  | some _ =>
    if db.orders.any (fun o => o.user_id == uid) then
      .error "Cannot delete user with existing orders"
    else
      .ok { db with users := db.users.filter (fun u => u.id != uid) }

/-- The stock guard of `OrderRepository.create` line 37
(`product.count_in_warehouse < item.quantity`), evaluated against a
count previously read by this session. -/
def stockCheck (readCount qty : Int) : Bool := !(readCount < qty)

/-- The stock write of `OrderRepository.create` line 57
(`product.count_in_warehouse -= item.quantity`): the value committed is
the read value minus the quantity. -/
def stockWrite (readCount qty : Int) : Int := readCount - qty

/-- Two concurrent `createOrder` calls for the same product, under the
interleaving in which both sessions read `count_in_warehouse` before
either commits (the check and the decrement are separate read-then-write
steps, not a conditional `UPDATE ... WHERE stock >= :qty`).  Each session
checks and writes against its own read value; commits land in session
order.  Returns the final committed stock and each call's outcome. -/
def racyReservePair (stock qty1 qty2 : Int) : Int × Bool × Bool :=
  let read1 := stock
  let read2 := stock
  let ok1 := stockCheck read1 qty1
  let afterFirst := if ok1 then stockWrite read1 qty1 else stock
  let ok2 := stockCheck read2 qty2
  let afterSecond := if ok2 then stockWrite read2 qty2 else afterFirst
  (afterSecond, ok1, ok2)

/-- The operations of C3's "any sequence of operations", each executed
through schema validation and the transaction wrapper. -/
inductive StoreOp where
  | createProduct (newId : Nat) (data : ProductCreateData)
  | updateProduct (pid : Nat) (data : ProductUpdateData)
  | updateStock (pid : Nat) (delta : Int)
  | createOrder (newId : Nat) (oc : OrderCreate)
  deriving Repr

/-- Run one operation against the committed datastore; a schema
validation error or a repository error leaves it unchanged. -/
def applyOp (db : DB) (op : StoreOp) : DB :=
  match op with
  | .createProduct newId d =>
    match validateProductCreate d with
    | .error _ => db
    | .ok v => (runTxn db (productRepositoryCreate db newId v)).1
  | .updateProduct pid d =>
    match validateProductUpdate d with
    | .error _ => db
    | .ok v => (runTxn db (productRepositoryUpdate db pid v)).1
  | .updateStock pid delta =>
    (runTxn db (productRepositoryUpdateStock db pid delta)).1
  | .createOrder newId oc => (runCreateOrder db newId oc).1

/-- Run a sequence of operations. -/
def applyOps (db : DB) : List StoreOp → DB
  | [] => db
  | op :: rest => applyOps (applyOp db op) rest

/-- C3's invariant: every product's warehouse count is nonnegative. -/
def stocksNonneg (db : DB) : Prop :=
  ∀ p ∈ db.products, 0 ≤ p.count_in_warehouse

instance (db : DB) : Decidable (stocksNonneg db) := by
  unfold stocksNonneg; infer_instance

/-- The sum of the requested quantities of the lines of one call that
mention product `pid`. -/
def sumQty : List OrderItemCreate → Nat → Int
  | [], _ => 0
  | it :: rest, pid =>
    (if it.product_id == pid then it.quantity else 0) + sumQty rest pid

/-- The total of an order recomputed at read time from its items, as the
spec's `sum(item.quantity * item.unit_price for item in items)`. -/
def orderTotal (db : DB) (oid : Nat) : Int :=
  ((db.order_items.filter (fun i => i.order_id == oid)).map
    (fun i => i.quantity * i.unit_price)).sum

/-- At most one address of user `uid` is primary. -/
def atMostOnePrimary (addrs : List Address) (uid : Nat) : Prop :=
  (addrs.filter (fun a => a.user_id == uid && a.is_primary)).length ≤ 1

instance (addrs : List Address) (uid : Nat) :
    Decidable (atMostOnePrimary addrs uid) := by
  unfold atMostOnePrimary; infer_instance

/-- `sum(item.quantity * item.unit_price)` over a list of order items. -/
def itemsTotal (l : List OrderItem) : Int :=
  (l.map (fun i => i.quantity * i.unit_price)).sum

/-- A small concrete datastore (one user, one primary address, two
products, one order with one item) used to instantiate theorems at
concrete inputs. -/
def dbW : DB :=
  { users := [⟨1, "alice", "alice@example.com", none⟩],
    addresses := [⟨1, 1, "Main St", "Town", none, "12345", "US", true⟩],
    products := [⟨1, "Widget", 1, 100, 1000⟩, ⟨2, "Gadget", 1, 5, 1500⟩],
    orders := [⟨1, 1, 1⟩],
    order_items := [⟨1, 1, 2, 1000⟩] }

/-! ## Lemmas about keyed point lookups and point mutations -/

theorem findByKey_cons {α : Type} (key : α → Nat) (a : α) (l : List α)
    (k : Nat) :
    findByKey key (a :: l) k =
      if key a == k then some a else findByKey key l k := by
  by_cases h : (key a == k) = true
  · simp [findByKey, List.find?, h]
  · simp [findByKey, List.find?, h] at *

theorem mem_setByKey {α : Type} {key : α → Nat} {l : List α} {k : Nat}
    {f : α → α} {q : α} (hq : q ∈ setByKey key l k f) :
    q ∈ l ∨ ∃ a, findByKey key l k = some a ∧ q = f a := by
  induction l with
  | nil => simp [setByKey] at hq
  | cons a rest ih =>
    by_cases h : (key a == k) = true
    · simp only [setByKey, h, if_true] at hq
      rcases List.mem_cons.mp hq with hq | hq
      · exact Or.inr ⟨a, by rw [findByKey_cons, h]; rfl, hq⟩
      · exact Or.inl (List.mem_cons_of_mem _ hq)
    · simp only [setByKey, h, if_false, Bool.false_eq_true] at hq
      rcases List.mem_cons.mp hq with hq | hq
      · exact Or.inl (by simp [hq])
      · rcases ih hq with h1 | ⟨p, hp, he⟩
        · exact Or.inl (List.mem_cons_of_mem _ h1)
        · refine Or.inr ⟨p, ?_, he⟩
          rw [findByKey_cons, if_neg (by simp [h]), hp]

theorem findByKey_setByKey_self {α : Type} {key : α → Nat} {l : List α}
    {k : Nat} {f : α → α} {a : α} (h : findByKey key l k = some a)
    (hid : key (f a) = key a) :
    findByKey key (setByKey key l k f) k = some (f a) := by
  induction l with
  | nil => simp [findByKey, List.find?] at h
  | cons b rest ih =>
    by_cases hb : (key b == k) = true
    · rw [findByKey_cons, if_pos hb] at h
      cases h
      simp only [setByKey, hb, if_true]
      rw [findByKey_cons, if_pos (by rw [hid]; exact hb)]
    · rw [findByKey_cons, if_neg (by simp [hb])] at h
      simp only [setByKey, hb, if_false, Bool.false_eq_true]
      rw [findByKey_cons, if_neg (by simp [hb])]
      exact ih h

theorem findByKey_setByKey_ne {α : Type} {key : α → Nat} {l : List α}
    {k k2 : Nat} {f : α → α} (hne : k2 ≠ k)
    (hid : ∀ a, key (f a) = key a) :
    findByKey key (setByKey key l k f) k2 = findByKey key l k2 := by
  induction l with
  | nil => rfl
  | cons b rest ih =>
    by_cases hb : (key b == k) = true
    · simp only [setByKey, hb, if_true]
      rw [findByKey_cons, findByKey_cons, hid]
      have hbk : key b = k := by simpa using hb
      have hfalse : (key b == k2) = false := by
        rw [hbk]
        exact beq_eq_false_iff_ne.mpr (Ne.symm hne)
      simp [hfalse]
    · simp only [setByKey, hb, if_false, Bool.false_eq_true]
      rw [findByKey_cons, findByKey_cons]
      by_cases hb2 : (key b == k2) = true
      · simp [hb2]
      · simp [hb2, ih]

theorem map_key_setByKey {α : Type} {key : α → Nat} {l : List α} {k : Nat}
    {f : α → α} (hid : ∀ a, key (f a) = key a) :
    (setByKey key l k f).map key = l.map key := by
  induction l with
  | nil => rfl
  | cons b rest ih =>
    by_cases hb : (key b == k) = true
    · simp only [setByKey, hb, if_true, List.map_cons, hid]
    · simp only [setByKey, hb, if_false, Bool.false_eq_true, List.map_cons,
        ih]

theorem length_filter_le_one_of_key {α : Type} (key : α → Nat)
    (P : α → Bool) (l : List α) (k : Nat)
    (hkey : ∀ a ∈ l, P a = true → key a = k)
    (hnodup : (l.map key).Nodup) : (l.filter P).length ≤ 1 := by
  induction l with
  | nil => simp
  | cons b rest ih =>
    rw [List.map_cons, List.nodup_cons] at hnodup
    by_cases hb : P b = true
    · have hbk : key b = k := hkey b (by simp) hb
      have hrest : rest.filter P = [] := by
        rw [List.filter_eq_nil_iff]
        intro a ha hPa
        have hak : key a = k := hkey a (List.mem_cons_of_mem _ ha) hPa
        have hmem : key a ∈ rest.map key := List.mem_map_of_mem key ha
        rw [hak, ← hbk] at hmem
        exact hnodup.1 hmem
      simp [List.filter_cons, hb, hrest]
    · simp only [List.filter_cons, hb, if_false, Bool.false_eq_true]
      exact ih (fun a ha hPa => hkey a (List.mem_cons_of_mem _ ha) hPa)
        hnodup.2


/-! ## Lemmas about the order-creation loop -/

theorem createOrderLoop_preserves_nonneg (items : List OrderItemCreate) :
    ∀ (prods : List Product) (orderId : Nat) (acc : List OrderItem)
      (total : Int) (ps : List Product) (its : List OrderItem) (t : Int),
    createOrderLoop prods orderId items acc total = .ok (ps, its, t) →
    (∀ p ∈ prods, 0 ≤ p.count_in_warehouse) →
    ∀ p ∈ ps, 0 ≤ p.count_in_warehouse := by
  induction items with
  | nil =>
    intro prods orderId acc total ps its t hok h
    simp only [createOrderLoop, Except.ok.injEq, Prod.mk.injEq] at hok
    obtain ⟨h1, _, _⟩ := hok
    subst h1
    exact h
  | cons item rest ih =>
    intro prods orderId acc total ps its t hok h
    cases hfind : findProduct prods item.product_id with
    | none =>
      simp only [createOrderLoop, hfind] at hok
      exact Except.noConfusion hok
    | some product =>
      simp only [createOrderLoop, hfind] at hok
      by_cases hc : product.count_in_warehouse < item.quantity
      · rw [if_pos hc] at hok
        exact Except.noConfusion hok
      · rw [if_neg hc] at hok
        refine ih _ _ _ _ _ _ _ hok ?_
        intro p hp
        simp only [setProduct] at hp
        rcases mem_setByKey hp with hmem | ⟨p0, hp0, he⟩
        · exact h p hmem
        · simp only [findProduct] at hfind
          rw [hfind] at hp0
          obtain rfl : product = p0 := Option.some.inj hp0
          subst he
          show 0 ≤ product.count_in_warehouse - item.quantity
          omega

theorem createOrderLoop_stock_accounting (items : List OrderItemCreate) :
    ∀ (prods : List Product) (orderId : Nat) (acc : List OrderItem)
      (total : Int) (pid : Nat) (p0 : Product) (ps : List Product)
      (its : List OrderItem) (t : Int),
    findProduct prods pid = some p0 →
    createOrderLoop prods orderId items acc total = .ok (ps, its, t) →
    ∃ p1, findProduct ps pid = some p1 ∧
      p1.count_in_warehouse = p0.count_in_warehouse - sumQty items pid ∧
      p1.id = p0.id ∧ p1.label = p0.label ∧ p1.price = p0.price ∧
      (0 ≤ p0.count_in_warehouse → 0 ≤ p1.count_in_warehouse) := by
  induction items with
  | nil =>
    intro prods orderId acc total pid p0 ps its t hfind hok
    simp only [createOrderLoop, Except.ok.injEq, Prod.mk.injEq] at hok
    obtain ⟨h1, _, _⟩ := hok
    subst h1
    exact ⟨p0, hfind, by simp [sumQty], rfl, rfl, rfl, fun h => h⟩
  | cons item rest ih =>
    intro prods orderId acc total pid p0 ps its t hfind hok
    cases hfindi : findProduct prods item.product_id with
    | none =>
      simp only [createOrderLoop, hfindi] at hok
      exact Except.noConfusion hok
    | some product =>
      simp only [createOrderLoop, hfindi] at hok
      by_cases hc : product.count_in_warehouse < item.quantity
      · rw [if_pos hc] at hok
        exact Except.noConfusion hok
      · rw [if_neg hc] at hok
        by_cases hpid : item.product_id = pid
        · subst hpid
          rw [hfind] at hfindi
          obtain rfl : p0 = product := Option.some.inj hfindi
          have hfind2 : findProduct
              (setProduct prods item.product_id (fun p =>
                { p with count_in_warehouse :=
                    p.count_in_warehouse - item.quantity }))
              item.product_id =
              some { p0 with count_in_warehouse :=
                p0.count_in_warehouse - item.quantity } := by
            simp only [findProduct, setProduct] at hfind ⊢
            exact findByKey_setByKey_self hfind rfl
          obtain ⟨p1, ha, hcnt, hid, hlab, hpr, hnn⟩ :=
            ih _ orderId _ _ item.product_id _ _ _ _ hfind2 hok
          dsimp only at hcnt hid hlab hpr hnn
          refine ⟨p1, ha, ?_, hid, hlab, hpr, fun _ => hnn (by omega)⟩
          have hq : sumQty (item :: rest) item.product_id =
              item.quantity + sumQty rest item.product_id := by
            simp [sumQty]
          rw [hq]
          omega
        · have hfind2 : findProduct
              (setProduct prods item.product_id (fun p =>
                { p with count_in_warehouse :=
                    p.count_in_warehouse - item.quantity }))
              pid = some p0 := by
            simp only [findProduct, setProduct] at hfind ⊢
            have hrw := @findByKey_setByKey_ne Product Product.id prods
              item.product_id pid
              (fun p => { p with count_in_warehouse :=
                p.count_in_warehouse - item.quantity })
              (fun h => hpid h.symm) (fun a => rfl)
            rw [hrw]
            exact hfind
          obtain ⟨p1, ha, hcnt, hid, hlab, hpr, hnn⟩ :=
            ih _ orderId _ _ pid _ _ _ _ hfind2 hok
          refine ⟨p1, ha, ?_, hid, hlab, hpr, hnn⟩
          have hq : sumQty (item :: rest) pid = sumQty rest pid := by
            have hfalse : (item.product_id == pid) = false :=
              beq_eq_false_iff_ne.mpr hpid
            simp [sumQty, hfalse]
          rw [hq]
          exact hcnt

theorem createOrderLoop_total (items : List OrderItemCreate) :
    ∀ (prods : List Product) (orderId : Nat) (acc : List OrderItem)
      (total : Int) (ps : List Product) (its : List OrderItem) (t : Int),
    createOrderLoop prods orderId items acc total = .ok (ps, its, t) →
    total = itemsTotal acc → t = itemsTotal its := by
  induction items with
  | nil =>
    intro prods orderId acc total ps its t hok hacc
    simp only [createOrderLoop, Except.ok.injEq, Prod.mk.injEq] at hok
    obtain ⟨_, h2, h3⟩ := hok
    subst h2; subst h3
    exact hacc
  | cons item rest ih =>
    intro prods orderId acc total ps its t hok hacc
    cases hfindi : findProduct prods item.product_id with
    | none =>
      simp only [createOrderLoop, hfindi] at hok
      exact Except.noConfusion hok
    | some product =>
      simp only [createOrderLoop, hfindi] at hok
      by_cases hc : product.count_in_warehouse < item.quantity
      · rw [if_pos hc] at hok
        exact Except.noConfusion hok
      · rw [if_neg hc] at hok
        refine ih _ orderId _ _ _ _ _ hok ?_
        simp only [itemsTotal, List.map_append, List.sum_append,
          List.map_cons, List.sum_cons, List.map_nil, List.sum_nil]
        simp only [itemsTotal] at hacc
        rw [hacc]
        ring

theorem createOrderLoop_items_order_id (items : List OrderItemCreate) :
    ∀ (prods : List Product) (orderId : Nat) (acc : List OrderItem)
      (total : Int) (ps : List Product) (its : List OrderItem) (t : Int),
    createOrderLoop prods orderId items acc total = .ok (ps, its, t) →
    (∀ i ∈ acc, i.order_id = orderId) →
    ∀ i ∈ its, i.order_id = orderId := by
  induction items with
  | nil =>
    intro prods orderId acc total ps its t hok hacc
    simp only [createOrderLoop, Except.ok.injEq, Prod.mk.injEq] at hok
    obtain ⟨_, h2, _⟩ := hok
    subst h2
    exact hacc
  | cons item rest ih =>
    intro prods orderId acc total ps its t hok hacc
    cases hfindi : findProduct prods item.product_id with
    | none =>
      simp only [createOrderLoop, hfindi] at hok
      exact Except.noConfusion hok
    | some product =>
      simp only [createOrderLoop, hfindi] at hok
      by_cases hc : product.count_in_warehouse < item.quantity
      · rw [if_pos hc] at hok
        exact Except.noConfusion hok
      · rw [if_neg hc] at hok
        refine ih _ orderId _ _ _ _ _ hok ?_
        intro i hi
        rcases List.mem_append.mp hi with hi | hi
        · exact hacc i hi
        · simp only [List.mem_singleton] at hi
          subst hi
          rfl

/-! ## C1 — failure of any line rolls the whole call back -/

/-- C1: whenever a `createOrder` call fails on any line (product not
found or insufficient stock), the transaction wrapper rolls the session
back and the committed datastore is exactly the pre-call one: no order
header row, no order item, and no stock decrement — including decrements
already applied for earlier, successful lines of the same call —
persists. -/
theorem createOrder_failure_restores_datastore (db : DB) (newId : Nat)
    (oc : OrderCreate) (db2 : DB) (e : OrderErr)
    (h : runCreateOrder db newId oc = (db2, some e)) :
    db2.orders = db.orders ∧ db2.order_items = db.order_items ∧
    db2.products = db.products := by
  unfold runCreateOrder at h
  cases hcr : orderRepositoryCreate db newId oc with
  | error e2 =>
    rw [hcr] at h
    injection h with h1 h2
    subst h1
    exact ⟨rfl, rfl, rfl⟩
  | ok dbo =>
    rw [hcr] at h
    injection h with h1 h2
    exact Option.noConfusion h2

/-- Witness for C1: the spec's own scenario — line 1 requests 2 of a
product with stock 100 (would succeed, decrementing in-session), line 2
requests 999999 of a product with stock 5 and fails; the call reports
the failing product with available vs requested, and orders, items and
stocks are all unchanged. -/
theorem createOrder_failure_restores_datastore_witness :
    runCreateOrder dbW 7
        { user_id := 1, address_id := 1,
          items := [⟨1, 2⟩, ⟨2, 999999⟩] } =
      (dbW, some (.insufficientStock "Gadget" 5 999999)) ∧
    ((runCreateOrder dbW 7
        { user_id := 1, address_id := 1,
          items := [⟨1, 2⟩, ⟨2, 999999⟩] }).1.orders = dbW.orders ∧
     (runCreateOrder dbW 7
        { user_id := 1, address_id := 1,
          items := [⟨1, 2⟩, ⟨2, 999999⟩] }).1.order_items =
        dbW.order_items ∧
     (runCreateOrder dbW 7
        { user_id := 1, address_id := 1,
          items := [⟨1, 2⟩, ⟨2, 999999⟩] }).1.products = dbW.products) :=
  ⟨by decide,
   createOrder_failure_restores_datastore dbW 7
     { user_id := 1, address_id := 1, items := [⟨1, 2⟩, ⟨2, 999999⟩] }
     dbW (.insufficientStock "Gadget" 5 999999) (by decide)⟩

/-! ## C2 — the check-then-decrement is not atomic -/

/-- C2 (showing the code's behaviour at the claim's own scenario): the
source's stock update is a read (`session.get`), a Python comparison and
an in-place write of `readValue - quantity` — separate steps, not a
conditional atomic update.  Under the interleaving in which both
concurrent sessions read `count_in_warehouse = 10` before either
commits, BOTH calls requesting 6 pass the check and succeed — 12 units
are granted out of 10 — and the final committed stock is 4, so the
required "exactly one success" does not hold. -/
theorem racy_reservation_both_succeed :
    racyReservePair 10 6 6 = (4, true, true) ∧
    ¬((racyReservePair 10 6 6).2.1 = true ∧
      (racyReservePair 10 6 6).2.2 = false) := by
  constructor
  · decide
  · decide

/-! ## Inversion lemmas for `orderRepositoryCreate` -/

theorem orderRepositoryCreate_of_loop_ok (db : DB) (newId : Nat)
    (oc : OrderCreate) (ps : List Product) (its : List OrderItem) (t : Int)
    (h : createOrderLoop db.products newId oc.items [] 0 = .ok (ps, its, t)) :
    orderRepositoryCreate db newId oc =
      .ok { db with
        products := ps,
        orders := db.orders ++ [⟨newId, oc.user_id, oc.address_id⟩],
        order_items := db.order_items ++ its } := by
  unfold orderRepositoryCreate
  rw [h]

theorem orderRepositoryCreate_of_loop_error (db : DB) (newId : Nat)
    (oc : OrderCreate) (e : OrderErr)
    (h : createOrderLoop db.products newId oc.items [] 0 = .error e) :
    orderRepositoryCreate db newId oc = .error e := by
  unfold orderRepositoryCreate
  rw [h]

theorem orderRepositoryCreate_ok_inv (db : DB) (newId : Nat)
    (oc : OrderCreate) (db2 : DB)
    (h : orderRepositoryCreate db newId oc = .ok db2) :
    ∃ ps its t,
      createOrderLoop db.products newId oc.items [] 0 = .ok (ps, its, t) ∧
      db2 = { db with
        products := ps,
        orders := db.orders ++ [⟨newId, oc.user_id, oc.address_id⟩],
        order_items := db.order_items ++ its } := by
  unfold orderRepositoryCreate at h
  cases hloop : createOrderLoop db.products newId oc.items [] 0 with
  | error e =>
    rw [hloop] at h
    exact Except.noConfusion h
  | ok out =>
    obtain ⟨ps, its, t⟩ := out
    rw [hloop] at h
    injection h with h
    exact ⟨ps, its, t, rfl, h.symm⟩

theorem createOrderLoop_singleton (prods : List Product) (orderId pid : Nat)
    (qty : Int) (p : Product) (hfind : findProduct prods pid = some p) :
    createOrderLoop prods orderId [⟨pid, qty⟩] [] 0 =
      if p.count_in_warehouse < qty then
        .error (.insufficientStock p.label p.count_in_warehouse qty)
      else
        .ok (setProduct prods pid (fun q =>
               { q with count_in_warehouse := q.count_in_warehouse - qty }),
             [⟨orderId, pid, qty, p.price⟩], 0 + p.price * qty) := by
  simp only [createOrderLoop, hfind, List.nil_append]

/-! ## C10 — duplicate lines are checked against the running count -/

/-- C10: within one `createOrder` call, later lines for the same product
are checked against the in-session count already decremented by the
earlier lines (the identity-mapped object, not a stale re-read), so on a
successful call the product's final count is its initial count minus the
combined quantity of all lines for it, it stays nonnegative, and hence
the combined quantity accepted never exceeds the stock at the start of
the call. -/
theorem duplicate_lines_bounded_by_initial_stock (db : DB) (newId : Nat)
    (oc : OrderCreate) (pid : Nat) (p0 : Product) (db2 : DB)
    (h0 : 0 ≤ p0.count_in_warehouse)
    (hfind : findProduct db.products pid = some p0)
    (hok : orderRepositoryCreate db newId oc = .ok db2) :
    ∃ p1, findProduct db2.products pid = some p1 ∧
      p1.count_in_warehouse = p0.count_in_warehouse - sumQty oc.items pid ∧
      0 ≤ p1.count_in_warehouse ∧
      sumQty oc.items pid ≤ p0.count_in_warehouse := by
  obtain ⟨ps, its, t, hloop, hdb2⟩ :=
    orderRepositoryCreate_ok_inv db newId oc db2 hok
  subst hdb2
  obtain ⟨p1, ha, hcnt, _, _, _, hnn⟩ :=
    createOrderLoop_stock_accounting oc.items db.products newId [] 0 pid
      p0 ps its t hfind hloop
  have hnn2 := hnn h0
  exact ⟨p1, ha, hcnt, hnn2, by omega⟩

/-- Witness for C10: a call with duplicate lines (60 and 30 of the same
product, initial stock 100) succeeds, final stock is 10, and the
combined quantity 90 does not exceed the initial stock. -/
theorem duplicate_lines_bounded_by_initial_stock_witness :
    (0 : Int) ≤ 100 ∧
    findProduct dbW.products 1 = some ⟨1, "Widget", 1, 100, 1000⟩ ∧
    orderRepositoryCreate dbW 9 ⟨1, 1, [⟨1, 60⟩, ⟨1, 30⟩]⟩ =
      .ok ⟨dbW.users, dbW.addresses,
           [⟨1, "Widget", 1, 10, 1000⟩, ⟨2, "Gadget", 1, 5, 1500⟩],
           [⟨1, 1, 1⟩, ⟨9, 1, 1⟩],
           [⟨1, 1, 2, 1000⟩, ⟨9, 1, 60, 1000⟩, ⟨9, 1, 30, 1000⟩]⟩ ∧
    (∃ p1,
      findProduct
        (DB.mk dbW.users dbW.addresses
          [⟨1, "Widget", 1, 10, 1000⟩, ⟨2, "Gadget", 1, 5, 1500⟩]
          [⟨1, 1, 1⟩, ⟨9, 1, 1⟩]
          [⟨1, 1, 2, 1000⟩, ⟨9, 1, 60, 1000⟩, ⟨9, 1, 30, 1000⟩]).products
        1 = some p1 ∧
      p1.count_in_warehouse = 100 - sumQty [⟨1, 60⟩, ⟨1, 30⟩] 1 ∧
      0 ≤ p1.count_in_warehouse ∧
      sumQty [⟨1, 60⟩, ⟨1, 30⟩] 1 ≤ 100) :=
  ⟨by decide, by decide, by decide,
   duplicate_lines_bounded_by_initial_stock dbW 9 ⟨1, 1, [⟨1, 60⟩, ⟨1, 30⟩]⟩
     1 ⟨1, "Widget", 1, 100, 1000⟩
     ⟨dbW.users, dbW.addresses,
      [⟨1, "Widget", 1, 10, 1000⟩, ⟨2, "Gadget", 1, 5, 1500⟩],
      [⟨1, 1, 1⟩, ⟨9, 1, 1⟩],
      [⟨1, 1, 2, 1000⟩, ⟨9, 1, 60, 1000⟩, ⟨9, 1, 30, 1000⟩]⟩
     (by decide) (by decide) (by decide)⟩

/-! ## C4 — per-line reservation semantics -/

/-- C4: a line item `(pid, qty)` processed by order creation reads the
product's current `count_in_warehouse` and price, succeeds exactly when
`count_in_warehouse >= qty`, on success decrements the count by exactly
`qty` and snapshots the current price into the `OrderItem`'s
`unit_price`, and on failure reports the failing product with the
available and requested quantities (or the missing product's id).
Stated for a call whose single line is the one under consideration; in a
multi-line call each line sees the in-session state left by the earlier
lines (see the running-count theorem for that case). -/
theorem reserve_line_check_decrement_snapshot (db : DB)
    (newId uid aid pid : Nat) (qty : Int) (p : Product)
    (hfind : findProduct db.products pid = some p) :
    ((∃ db2, orderRepositoryCreate db newId ⟨uid, aid, [⟨pid, qty⟩]⟩ =
        .ok db2) ↔ qty ≤ p.count_in_warehouse) ∧
    (∀ db2, orderRepositoryCreate db newId ⟨uid, aid, [⟨pid, qty⟩]⟩ =
        .ok db2 →
      findProduct db2.products pid =
        some { p with count_in_warehouse := p.count_in_warehouse - qty } ∧
      db2.order_items = db.order_items ++ [⟨newId, pid, qty, p.price⟩]) ∧
    (p.count_in_warehouse < qty →
      orderRepositoryCreate db newId ⟨uid, aid, [⟨pid, qty⟩]⟩ =
        .error (.insufficientStock p.label p.count_in_warehouse qty)) ∧
    (∀ pid2 qty2, findProduct db.products pid2 = none →
      orderRepositoryCreate db newId ⟨uid, aid, [⟨pid2, qty2⟩]⟩ =
        .error (.productNotFound pid2)) := by
  have hstep := createOrderLoop_singleton db.products newId pid qty p hfind
  refine ⟨⟨?_, ?_⟩, ?_, ?_, ?_⟩
  · rintro ⟨db2, hok⟩
    obtain ⟨ps, its, t, hloop, _⟩ :=
      orderRepositoryCreate_ok_inv db newId _ db2 hok
    rw [hstep] at hloop
    by_cases hc : p.count_in_warehouse < qty
    · rw [if_pos hc] at hloop
      exact Except.noConfusion hloop
    · omega
  · intro hle
    have hc : ¬p.count_in_warehouse < qty := by omega
    rw [if_neg hc] at hstep
    exact ⟨_, orderRepositoryCreate_of_loop_ok db newId ⟨uid, aid, [⟨pid, qty⟩]⟩
      _ _ _ hstep⟩
  · intro db2 hok
    obtain ⟨ps, its, t, hloop, hdb2⟩ :=
      orderRepositoryCreate_ok_inv db newId _ db2 hok
    rw [hstep] at hloop
    by_cases hc : p.count_in_warehouse < qty
    · rw [if_pos hc] at hloop
      exact Except.noConfusion hloop
    · rw [if_neg hc] at hloop
      injection hloop with hloop
      injection hloop with h1 h23
      injection h23 with h2 h3
      subst h1
      subst h2
      subst hdb2
      constructor
      · show findProduct (setProduct db.products pid (fun q =>
          { q with count_in_warehouse := q.count_in_warehouse - qty }))
          pid = _
        simp only [findProduct, setProduct] at hfind ⊢
        exact findByKey_setByKey_self hfind rfl
      · rfl
  · intro hc
    rw [if_pos hc] at hstep
    exact orderRepositoryCreate_of_loop_error db newId _ _ hstep
  · intro pid2 qty2 hnone
    have hstep2 : createOrderLoop db.products newId [⟨pid2, qty2⟩] [] 0 =
        .error (.productNotFound pid2) := by
      simp only [createOrderLoop, hnone]
    exact orderRepositoryCreate_of_loop_error db newId _ _ hstep2

/-- Witness for C4: the spec's scenario — ordering 3 Widgets (stock 100,
price 10.00) succeeds, stock becomes 97, the item snapshots unit price
10.00; a request above stock fails with the available/requested report;
a missing product id fails with the not-found report. -/
theorem reserve_line_check_decrement_snapshot_witness :
    findProduct dbW.products 1 = some ⟨1, "Widget", 1, 100, 1000⟩ ∧
    orderRepositoryCreate dbW 9 ⟨1, 1, [⟨1, 3⟩]⟩ =
      .ok ⟨dbW.users, dbW.addresses,
           [⟨1, "Widget", 1, 97, 1000⟩, ⟨2, "Gadget", 1, 5, 1500⟩],
           [⟨1, 1, 1⟩, ⟨9, 1, 1⟩],
           [⟨1, 1, 2, 1000⟩, ⟨9, 1, 3, 1000⟩]⟩ ∧
    findProduct [⟨1, "Widget", 1, 97, 1000⟩, ⟨2, "Gadget", 1, 5, 1500⟩] 1 =
      some ⟨1, "Widget", 1, 97, 1000⟩ ∧
    ([⟨1, 1, 2, 1000⟩, ⟨9, 1, 3, 1000⟩] : List OrderItem) =
      dbW.order_items ++ [⟨9, 1, 3, 1000⟩] ∧
    orderRepositoryCreate dbW 9 ⟨1, 1, [⟨2, 7⟩]⟩ =
      .error (.insufficientStock "Gadget" 5 7) ∧
    orderRepositoryCreate dbW 9 ⟨1, 1, [⟨3, 1⟩]⟩ =
      .error (.productNotFound 3) :=
  ⟨by decide, by decide,
   ((reserve_line_check_decrement_snapshot dbW 9 1 1 1 3
       ⟨1, "Widget", 1, 100, 1000⟩ (by decide)).2.1
     ⟨dbW.users, dbW.addresses,
      [⟨1, "Widget", 1, 97, 1000⟩, ⟨2, "Gadget", 1, 5, 1500⟩],
      [⟨1, 1, 1⟩, ⟨9, 1, 1⟩],
      [⟨1, 1, 2, 1000⟩, ⟨9, 1, 3, 1000⟩]⟩ (by decide)).1,
   ((reserve_line_check_decrement_snapshot dbW 9 1 1 1 3
       ⟨1, "Widget", 1, 100, 1000⟩ (by decide)).2.1
     ⟨dbW.users, dbW.addresses,
      [⟨1, "Widget", 1, 97, 1000⟩, ⟨2, "Gadget", 1, 5, 1500⟩],
      [⟨1, 1, 1⟩, ⟨9, 1, 1⟩],
      [⟨1, 1, 2, 1000⟩, ⟨9, 1, 3, 1000⟩]⟩ (by decide)).2,
   (reserve_line_check_decrement_snapshot dbW 9 1 1 2 7
       ⟨2, "Gadget", 1, 5, 1500⟩ (by decide)).2.2.1 (by decide),
   (reserve_line_check_decrement_snapshot dbW 9 1 1 1 3
       ⟨1, "Widget", 1, 100, 1000⟩ (by decide)).2.2.2 3 1 (by decide)⟩

/-! ## C5 — order totals are snapshots, product updates do not touch them -/

/-- C5: (1) for an order persisted by a successful `createOrder` call
(with a fresh order id), the total recomputed at read time from its
items — `sum(item.quantity * item.unit_price)` — equals the
`total_amount` accumulated during creation; (2) `ProductRepository.update`
writes only product rows: it leaves every `OrderItem` (in particular
every `unit_price` and `quantity`) and every order header unchanged,
so a later product price change never alters any existing order's
total. -/
theorem order_total_snapshot_and_update_frame :
    (∀ (db : DB) (newId : Nat) (oc : OrderCreate) (ps : List Product)
       (its : List OrderItem) (t : Int) (db2 : DB),
      createOrderLoop db.products newId oc.items [] 0 = .ok (ps, its, t) →
      orderRepositoryCreate db newId oc = .ok db2 →
      (∀ i ∈ db.order_items, i.order_id ≠ newId) →
      orderTotal db2 newId = t) ∧
    (∀ (db : DB) (pid : Nat) (pu : ProductUpdateV) (db2 : DB),
      productRepositoryUpdate db pid pu = .ok db2 →
      db2.order_items = db.order_items ∧ db2.orders = db.orders ∧
      ∀ oid, orderTotal db2 oid = orderTotal db oid) := by
  constructor
  · intro db newId oc ps its t db2 hloop hok hfresh
    obtain ⟨ps2, its2, t2, hloop2, hdb2⟩ :=
      orderRepositoryCreate_ok_inv db newId oc db2 hok
    rw [hloop] at hloop2
    injection hloop2 with hloop2
    injection hloop2 with h1 h23
    injection h23 with h2 h3
    subst h1
    subst h2
    subst hdb2
    have hids : ∀ i ∈ its, i.order_id = newId :=
      createOrderLoop_items_order_id oc.items db.products newId [] 0 ps its
        t hloop (by intro i hi; exact absurd hi (List.not_mem_nil i))
    have htot : t = itemsTotal its :=
      createOrderLoop_total oc.items db.products newId [] 0 ps its t hloop
        (by simp [itemsTotal])
    show orderTotal { db with
      products := ps,
      orders := db.orders ++ [⟨newId, oc.user_id, oc.address_id⟩],
      order_items := db.order_items ++ its } newId = t
    unfold orderTotal
    have hfilter : (db.order_items ++ its).filter
        (fun i => i.order_id == newId) = its := by
      rw [List.filter_append]
      have h1 : db.order_items.filter (fun i => i.order_id == newId) = [] := by
        rw [List.filter_eq_nil_iff]
        intro i hi
        simpa using hfresh i hi
      have h2 : its.filter (fun i => i.order_id == newId) = its := by
        rw [List.filter_eq_self]
        intro i hi
        simpa using hids i hi
      rw [h1, h2, List.nil_append]
    rw [show ({ db with
      products := ps,
      orders := db.orders ++ [⟨newId, oc.user_id, oc.address_id⟩],
      order_items := db.order_items ++ its } : DB).order_items =
        db.order_items ++ its from rfl, hfilter]
    exact htot.symm
  · intro db pid pu db2 hok
    unfold productRepositoryUpdate at hok
    cases hfind : findProduct db.products pid with
    | none =>
      simp only [hfind] at hok
      exact Except.noConfusion hok
    | some p =>
      simp only [hfind] at hok
      have hfields : db2.order_items = db.order_items ∧
          db2.orders = db.orders := by
        cases hpu : pu.price with
        | none =>
          simp only [hpu] at hok
          injection hok with hok
          subst hok
          exact ⟨rfl, rfl⟩
        | some c =>
          simp only [hpu] at hok
          by_cases hc : c ≤ 0
          · simp only [if_pos hc] at hok
            exact Except.noConfusion hok
          · simp only [if_neg hc] at hok
            injection hok with hok
            subst hok
            exact ⟨rfl, rfl⟩
      refine ⟨hfields.1, hfields.2, fun oid => ?_⟩
      unfold orderTotal
      rw [hfields.1]

/-- Witness for C5: a 3-Widget order (unit price 10.00) reads back a
total of 30.00, and a product price update to 20.00 leaves the order's
items, headers and total untouched. -/
theorem order_total_snapshot_and_update_frame_witness :
    createOrderLoop dbW.products 9 [⟨1, 3⟩] [] 0 =
      .ok ([⟨1, "Widget", 1, 97, 1000⟩, ⟨2, "Gadget", 1, 5, 1500⟩],
           [⟨9, 1, 3, 1000⟩], 3000) ∧
    orderTotal
      ⟨dbW.users, dbW.addresses,
       [⟨1, "Widget", 1, 97, 1000⟩, ⟨2, "Gadget", 1, 5, 1500⟩],
       [⟨1, 1, 1⟩, ⟨9, 1, 1⟩],
       [⟨1, 1, 2, 1000⟩, ⟨9, 1, 3, 1000⟩]⟩ 9 = 3000 ∧
    productRepositoryUpdate dbW 1 ⟨none, none, none, some 2000⟩ =
      .ok ⟨dbW.users, dbW.addresses,
           [⟨1, "Widget", 1, 100, 2000⟩, ⟨2, "Gadget", 1, 5, 1500⟩],
           dbW.orders, dbW.order_items⟩ ∧
    (DB.mk dbW.users dbW.addresses
       [⟨1, "Widget", 1, 100, 2000⟩, ⟨2, "Gadget", 1, 5, 1500⟩]
       dbW.orders dbW.order_items).order_items = dbW.order_items ∧
    orderTotal
      ⟨dbW.users, dbW.addresses,
       [⟨1, "Widget", 1, 100, 2000⟩, ⟨2, "Gadget", 1, 5, 1500⟩],
       dbW.orders, dbW.order_items⟩ 1 = orderTotal dbW 1 :=
  ⟨by decide,
   order_total_snapshot_and_update_frame.1 dbW 9 ⟨1, 1, [⟨1, 3⟩]⟩
     [⟨1, "Widget", 1, 97, 1000⟩, ⟨2, "Gadget", 1, 5, 1500⟩]
     [⟨9, 1, 3, 1000⟩] 3000
     ⟨dbW.users, dbW.addresses,
      [⟨1, "Widget", 1, 97, 1000⟩, ⟨2, "Gadget", 1, 5, 1500⟩],
      [⟨1, 1, 1⟩, ⟨9, 1, 1⟩],
      [⟨1, 1, 2, 1000⟩, ⟨9, 1, 3, 1000⟩]⟩
     (by decide) (by decide) (by decide),
   by decide,
   (order_total_snapshot_and_update_frame.2 dbW 1 ⟨none, none, none, some 2000⟩
     ⟨dbW.users, dbW.addresses,
      [⟨1, "Widget", 1, 100, 2000⟩, ⟨2, "Gadget", 1, 5, 1500⟩],
      dbW.orders, dbW.order_items⟩ (by decide)).1,
   (order_total_snapshot_and_update_frame.2 dbW 1 ⟨none, none, none, some 2000⟩
     ⟨dbW.users, dbW.addresses,
      [⟨1, "Widget", 1, 100, 2000⟩, ⟨2, "Gadget", 1, 5, 1500⟩],
      dbW.orders, dbW.order_items⟩ (by decide)).2.2 1⟩

/-! ## C3 — stock never goes negative -/

theorem validateProductCreate_count_nonneg (d : ProductCreateData)
    (v : ProductBaseV) (h : validateProductCreate d = .ok v) :
    0 ≤ v.count_in_warehouse := by
  simp only [validateProductCreate] at h
  split_ifs at h with h1 h2 h3 h4 h5 h6 h7
  injection h with h
  subst h
  dsimp only
  omega

theorem validateProductUpdateRest_count_nonneg (d : ProductUpdateData)
    (lab : Option String) (v : ProductUpdateV)
    (h : validateProductUpdate.validateProductUpdateRest d lab = .ok v) :
    ∀ c, v.count_in_warehouse = some c → 0 ≤ c := by
  simp only [validateProductUpdate.validateProductUpdateRest] at h
  split_ifs at h with h1 h2 h3 h4 h5
  injection h with h
  subst h
  intro c hc
  dsimp only at hc
  rw [hc] at h3
  simp only [Option.any_some, decide_eq_true_eq] at h3
  omega

theorem validateProductUpdate_count_nonneg (d : ProductUpdateData)
    (v : ProductUpdateV) (h : validateProductUpdate d = .ok v) :
    ∀ c, v.count_in_warehouse = some c → 0 ≤ c := by
  unfold validateProductUpdate at h
  cases hl : d.label with
  | none =>
    simp only [hl] at h
    exact validateProductUpdateRest_count_nonneg d none v h
  | some s =>
    simp only [hl] at h
    split_ifs at h with h1 h2
    exact validateProductUpdateRest_count_nonneg d (some (pyStrip s)) v h

theorem productRepositoryUpdate_preserves_nonneg (db : DB) (pid : Nat)
    (pu : ProductUpdateV) (db2 : DB)
    (hcnt : ∀ c, pu.count_in_warehouse = some c → 0 ≤ c)
    (hok : productRepositoryUpdate db pid pu = .ok db2)
    (h : stocksNonneg db) : stocksNonneg db2 := by
  unfold productRepositoryUpdate at hok
  cases hfind : findProduct db.products pid with
  | none =>
    simp only [hfind] at hok
    exact Except.noConfusion hok
  | some p =>
    simp only [hfind] at hok
    cases hpu : pu.price with
    | none =>
      simp only [hpu] at hok
      injection hok with hok
      subst hok
      intro q hq
      simp only [setProduct] at hq
      rcases mem_setByKey hq with hmem | ⟨p0, hp0, he⟩
      · exact h q hmem
      · subst he
        have hp0mem : p0 ∈ db.products := by
          simp only [findByKey] at hp0
          exact List.mem_of_find?_eq_some hp0
        cases hcw : pu.count_in_warehouse with
        | none =>
          show 0 ≤ (applyProductUpdate pu p0).count_in_warehouse
          simp only [applyProductUpdate, hcw, Option.getD_none]
          exact h p0 hp0mem
        | some c =>
          show 0 ≤ (applyProductUpdate pu p0).count_in_warehouse
          simp only [applyProductUpdate, hcw, Option.getD_some]
          exact hcnt c hcw
    | some c =>
      simp only [hpu] at hok
      by_cases hc : c ≤ 0
      · simp only [if_pos hc] at hok
        exact Except.noConfusion hok
      · simp only [if_neg hc] at hok
        injection hok with hok
        subst hok
        intro q hq
        simp only [setProduct] at hq
        rcases mem_setByKey hq with hmem | ⟨p0, hp0, he⟩
        · exact h q hmem
        · subst he
          have hp0mem : p0 ∈ db.products := by
            simp only [findByKey] at hp0
            exact List.mem_of_find?_eq_some hp0
          cases hcw : pu.count_in_warehouse with
          | none =>
            show 0 ≤ (applyProductUpdate _ p0).count_in_warehouse
            simp only [applyProductUpdate, hcw, Option.getD_none]
            exact h p0 hp0mem
          | some c2 =>
            show 0 ≤ (applyProductUpdate _ p0).count_in_warehouse
            simp only [applyProductUpdate, hcw, Option.getD_some]
            exact hcnt c2 hcw

theorem applyOp_preserves_nonneg (db : DB) (op : StoreOp)
    (h : stocksNonneg db) : stocksNonneg (applyOp db op) := by
  cases op with
  | createProduct newId d =>
    cases hv : validateProductCreate d with
    | error e =>
      simp only [applyOp, hv]
      exact h
    | ok v =>
      simp only [applyOp, hv, productRepositoryCreate, runTxn]
      by_cases hp : v.price ≤ 0
      · simp only [if_pos hp]
        exact h
      · simp only [if_neg hp]
        intro p hp2
        rcases List.mem_append.mp hp2 with hmem | hmem
        · exact h p hmem
        · simp only [List.mem_singleton] at hmem
          subst hmem
          exact validateProductCreate_count_nonneg d v hv
  | updateProduct pid d =>
    cases hv : validateProductUpdate d with
    | error e =>
      simp only [applyOp, hv]
      exact h
    | ok v =>
      simp only [applyOp, hv]
      cases hres : productRepositoryUpdate db pid v with
      | error e =>
        simp only [runTxn, hres]
        exact h
      | ok db2 =>
        simp only [runTxn, hres]
        exact productRepositoryUpdate_preserves_nonneg db pid v db2
          (validateProductUpdate_count_nonneg d v hv) hres h
  | updateStock pid delta =>
    cases hres : productRepositoryUpdateStock db pid delta with
    | error e =>
      simp only [applyOp, runTxn, hres]
      exact h
    | ok db2 =>
      simp only [applyOp, runTxn, hres]
      unfold productRepositoryUpdateStock at hres
      cases hfind : findProduct db.products pid with
      | none =>
        simp only [hfind] at hres
        exact Except.noConfusion hres
      | some p =>
        simp only [hfind] at hres
        by_cases hneg : p.count_in_warehouse + delta < 0
        · rw [if_pos hneg] at hres
          exact Except.noConfusion hres
        · rw [if_neg hneg] at hres
          injection hres with hres
          subst hres
          intro q hq
          simp only [setProduct] at hq
          rcases mem_setByKey hq with hmem | ⟨p0, hp0, he⟩
          · exact h q hmem
          · subst he
            show 0 ≤ p.count_in_warehouse + delta
            omega
  | createOrder newId oc =>
    cases hres : orderRepositoryCreate db newId oc with
    | error e =>
      simp only [applyOp, runCreateOrder, hres]
      exact h
    | ok db2 =>
      simp only [applyOp, runCreateOrder, hres]
      obtain ⟨ps, its, t, hloop, hdb2⟩ :=
        orderRepositoryCreate_ok_inv db newId oc db2 hres
      subst hdb2
      intro q hq
      exact createOrderLoop_preserves_nonneg oc.items db.products newId
        [] 0 ps its t hloop h q hq

theorem applyOps_preserves_nonneg (ops : List StoreOp) :
    ∀ db : DB, stocksNonneg db → stocksNonneg (applyOps db ops) := by
  induction ops with
  | nil => exact fun db h => h
  | cons op rest ih =>
    intro db h
    exact ih (applyOp db op) (applyOp_preserves_nonneg db op h)

/-- C3: starting from any datastore whose products all have nonnegative
`count_in_warehouse`, any sequence of product create / update /
update-stock / create-order operations preserves the invariant — and in
particular a stock adjustment whose effect would make the count
negative is rejected with the insufficient-stock error and leaves the
datastore unchanged. -/
theorem count_in_warehouse_nonneg_invariant (db : DB) (ops : List StoreOp)
    (h : stocksNonneg db) :
    stocksNonneg (applyOps db ops) ∧
    (∀ pid delta p, findProduct db.products pid = some p →
      p.count_in_warehouse + delta < 0 →
      runTxn db (productRepositoryUpdateStock db pid delta) =
        (db, some ("Insufficient stock. Current stock: " ++
          toString p.count_in_warehouse ++ ", Requested change: " ++
          toString delta))) := by
  refine ⟨applyOps_preserves_nonneg ops db h, ?_⟩
  intro pid delta p hfind hneg
  have heval : productRepositoryUpdateStock db pid delta =
      .error ("Insufficient stock. Current stock: " ++
        toString p.count_in_warehouse ++ ", Requested change: " ++
        toString delta) := by
    unfold productRepositoryUpdateStock
    simp only [hfind]
    rw [if_pos hneg]
  rw [heval]
  rfl

/-- Witness for C3: a sequence of an accepted stock decrement, an order
and a rejected stock decrement keeps every count nonnegative, and the
rejected decrement (5 + (-10) < 0) errors leaving the store unchanged. -/
theorem count_in_warehouse_nonneg_invariant_witness :
    stocksNonneg dbW ∧
    stocksNonneg (applyOps dbW
      [.updateStock 1 (-30), .createOrder 9 ⟨1, 1, [⟨1, 50⟩]⟩,
       .updateStock 2 (-10)]) ∧
    findProduct dbW.products 2 = some ⟨2, "Gadget", 1, 5, 1500⟩ ∧
    (5 : Int) + (-10) < 0 ∧
    runTxn dbW (productRepositoryUpdateStock dbW 2 (-10)) =
      (dbW, some ("Insufficient stock. Current stock: " ++
        toString (5 : Int) ++ ", Requested change: " ++
        toString (-10 : Int))) :=
  ⟨by decide,
   (count_in_warehouse_nonneg_invariant dbW
     [.updateStock 1 (-30), .createOrder 9 ⟨1, 1, [⟨1, 50⟩]⟩,
      .updateStock 2 (-10)] (by decide)).1,
   by decide, by decide,
   (count_in_warehouse_nonneg_invariant dbW
     [.updateStock 1 (-30), .createOrder 9 ⟨1, 1, [⟨1, 50⟩]⟩,
      .updateStock 2 (-10)] (by decide)).2 2 (-10)
     ⟨2, "Gadget", 1, 5, 1500⟩ (by decide) (by decide)⟩

/-! ## C6 — at most one primary address per user -/

theorem map_id_clearOtherPrimaries (addrs : List Address) (u : Nat)
    (excl : Option Nat) :
    (clearOtherPrimaries addrs u excl).map Address.id =
      addrs.map Address.id := by
  unfold clearOtherPrimaries
  rw [List.map_map]
  refine List.map_congr_left ?_
  intro a _
  show Address.id
    (if a.user_id == u && a.is_primary && excl.all (fun e => a.id != e)
     then { a with is_primary := false } else a) = Address.id a
  split
  · rfl
  · rfl

/-- C6: an Address create with `is_primary = true` clears the flag on
every other primary address of that user in the same unit of work, so
afterwards at most one address of the user is primary; likewise an
Address update that sets `is_primary` to true (given primary-key-unique
address ids, the update clears every other primary of the current
owner, excluding the address being written). -/
theorem primary_address_exclusive :
    (∀ (db : DB) (newId : Nat) (ad : AddressCreateData),
      ad.is_primary = true →
      atMostOnePrimary (addressRepositoryCreate db newId ad).addresses
        ad.user_id) ∧
    (∀ (db : DB) (aid : Nat) (au : AddressUpdateData) (address : Address)
       (db2 : DB),
      findAddress db.addresses aid = some address →
      au.is_primary = some true →
      (db.addresses.map Address.id).Nodup →
      addressRepositoryUpdate db aid au = .ok db2 →
      atMostOnePrimary db2.addresses address.user_id) := by
  constructor
  · intro db newId ad hp
    unfold addressRepositoryCreate
    rw [hp]
    simp only [if_true]
    unfold atMostOnePrimary
    rw [List.filter_append]
    have hnil : (clearOtherPrimaries db.addresses ad.user_id none).filter
        (fun a => a.user_id == ad.user_id && a.is_primary) = [] := by
      rw [List.filter_eq_nil_iff]
      intro a ha
      rcases List.mem_map.mp ha with ⟨b, _, he⟩
      subst he
      by_cases hcond : (b.user_id == ad.user_id && b.is_primary &&
          (Option.all (fun e => b.id != e) none)) = true
      · rw [if_pos hcond]
        simp
      · rw [if_neg hcond]
        simp only [Option.all_none, Bool.and_true] at hcond
        exact hcond
    rw [hnil, List.nil_append]
    exact List.length_filter_le _ _
  · intro db aid au address db2 hfind hp hnodup hok
    unfold addressRepositoryUpdate at hok
    simp only [hfind, hp, beq_self_eq_true, if_true] at hok
    injection hok with hok
    subst hok
    refine length_filter_le_one_of_key Address.id _ _ aid ?_ ?_
    · intro a ha hPa
      simp only [setAddress] at ha
      rcases mem_setByKey ha with hmem | ⟨b, hb, he⟩
      · rcases List.mem_map.mp hmem with ⟨b, _, he⟩
        subst he
        by_cases hcond : (b.user_id == address.user_id && b.is_primary &&
            (Option.all (fun e => b.id != e) (some aid))) = true
        · rw [if_pos hcond] at hPa
          simp at hPa
        · rw [if_neg hcond] at hPa
          rw [if_neg hcond]
          simp only [Option.all_some] at hcond
          simp only [Bool.and_eq_true, beq_iff_eq, bne_iff_ne] at hcond hPa
          by_contra hbid
          exact hcond ⟨⟨hPa.1, hPa.2⟩, hbid⟩
      · subst he
        show (applyAddressUpdate au b).id = aid
        have hbid : (b.id == aid) = true := by
          simp only [findByKey] at hb
          have := List.find?_some hb
          simpa using this
        simpa using hbid
    · have h1 : ((setAddress
          (clearOtherPrimaries db.addresses address.user_id (some aid)) aid
          (applyAddressUpdate au)).map Address.id) =
          db.addresses.map Address.id := by
        simp only [setAddress]
        rw [@map_key_setByKey Address Address.id
          (clearOtherPrimaries db.addresses address.user_id (some aid))
          aid (applyAddressUpdate au) (fun a => rfl)]
        exact map_id_clearOtherPrimaries db.addresses address.user_id
          (some aid)
      rw [h1]
      exact hnodup

/-- Witness for C6: creating a second primary address for the user whose
address 1 is already primary leaves exactly one primary; re-marking
address 1 primary through an update also leaves at most one. -/
theorem primary_address_exclusive_witness :
    atMostOnePrimary
      (addressRepositoryCreate dbW 5
        ⟨1, "B St", "Town2", none, "54321", "US", true⟩).addresses 1 ∧
    findAddress dbW.addresses 1 =
      some ⟨1, 1, "Main St", "Town", none, "12345", "US", true⟩ ∧
    addressRepositoryUpdate dbW 1
        ⟨none, none, none, none, none, some true⟩ = .ok dbW ∧
    atMostOnePrimary dbW.addresses 1 :=
  ⟨primary_address_exclusive.1 dbW 5
     ⟨1, "B St", "Town2", none, "54321", "US", true⟩ rfl,
   by decide, by decide,
   primary_address_exclusive.2 dbW 1
     ⟨none, none, none, none, none, some true⟩
     ⟨1, 1, "Main St", "Town", none, "12345", "US", true⟩ dbW
     (by decide) rfl (by decide) (by decide)⟩

/-! ## C7 — email immutability on user update -/

/-- Counterexample to C7 as stated: a payload that attempts to change
the email AND carries a 2-character username is rejected through the
username length rule (schema validation / the service's first check),
not with the `ImmutableField`/Conflict error the claim requires for
every email-changing payload — the user is nevertheless unchanged. -/
theorem email_change_with_short_username_not_conflict :
    (UserUpdateData.email ⟨some "ab", none, some "new@example.com"⟩).isSome =
      true ∧
    runUserUpdate dbW 1 ⟨some "ab", none, some "new@example.com"⟩ =
      (dbW, some "Username must be at least 3 characters") ∧
    some "Username must be at least 3 characters" ≠
      some "Email cannot be changed after registration" := by
  refine ⟨rfl, by decide, by decide⟩

/-- C7 (amended): every update payload that attempts to change the email
is rejected and leaves the datastore unchanged; the error is the
email-immutability (`ImmutableField`-style) one whenever the payload's
username, if present, passes the length rule — a short username is
reported first; and a username-only update with length ≥ 3 succeeds,
sets the username and leaves the email unchanged. -/
theorem email_immutable_amended :
    (∀ (db : DB) (uid : Nat) (ud : UserUpdateData),
      ud.email.isSome = true →
      (runUserUpdate db uid ud).1 = db ∧
      (runUserUpdate db uid ud).2.isSome = true) ∧
    (∀ (db : DB) (uid : Nat) (ud : UserUpdateData) (em : String),
      ud.email = some em →
      (∀ u, ud.username = some u → 3 ≤ u.length) →
      runUserUpdate db uid ud =
        (db, some "Email cannot be changed after registration")) ∧
    (∀ (db : DB) (uid : Nat) (uname : String) (user : User),
      3 ≤ uname.length →
      findUser db.users uid = some user →
      (runUserUpdate db uid ⟨some uname, none, none⟩).2 = none ∧
      ∃ user2,
        findUser (runUserUpdate db uid ⟨some uname, none, none⟩).1.users
          uid = some user2 ∧
        user2.username = uname ∧ user2.email = user.email) := by
  refine ⟨?_, ?_, ?_⟩
  · intro db uid ud hem
    simp only [runUserUpdate, validateUserUpdate]
    by_cases hval : ud.username.any (fun v => v.length < 3) = true
    · simp only [hval, if_true]
      exact ⟨by trivial, by trivial⟩
    · simp only [Bool.not_eq_true] at hval
      simp only [hval, Bool.false_eq_true, if_false]
      simp only [runTxn, userServiceUpdate]
      by_cases hshort : usernameTooShort ud.username = true
      · simp only [hshort, if_true]
        exact ⟨by trivial, by trivial⟩
      · simp only [Bool.not_eq_true] at hshort
        simp only [hshort, Bool.false_eq_true, if_false, hem, if_true]
        exact ⟨by trivial, by trivial⟩
  · intro db uid ud em hem hu
    have hval : ud.username.any (fun v => v.length < 3) = false := by
      cases hu2 : ud.username with
      | none => rfl
      | some u =>
        have h3 := hu u hu2
        have hd : decide (u.length < 3) = false :=
          decide_eq_false_iff_not.mpr (by omega)
        simp [Option.any_some, hd]
    have hshort : usernameTooShort ud.username = false := by
      cases hu2 : ud.username with
      | none => rfl
      | some u =>
        have h3 := hu u hu2
        have hd : decide (u.length < 3) = false :=
          decide_eq_false_iff_not.mpr (by omega)
        simp [usernameTooShort, hd]
    simp only [runUserUpdate, validateUserUpdate, hval, Bool.false_eq_true,
      if_false, runTxn, userServiceUpdate, hshort, hem, Option.isSome_some,
      if_true]
  · intro db uid uname user hlen huser
    have hd : decide (uname.length < 3) = false :=
      decide_eq_false_iff_not.mpr (by omega)
    have hshort : usernameTooShort (some uname) = false := by
      simp [usernameTooShort, hd]
    have hrepo : userRepositoryUpdate db uid ⟨some uname, none, none⟩ =
        .ok { db with users := setUser db.users uid (fun u =>
          { u with username := uname }) } := by
      unfold userRepositoryUpdate
      simp only [huser]
      rfl
    have hrun : runUserUpdate db uid ⟨some uname, none, none⟩ =
        ({ db with users := setUser db.users uid (fun u =>
          { u with username := uname }) }, none) := by
      simp only [runUserUpdate, validateUserUpdate, Option.any_some, hd,
        Bool.false_eq_true, if_false, runTxn, userServiceUpdate, hshort,
        Option.isSome_none, hrepo]
    rw [hrun]
    refine ⟨rfl, { user with username := uname }, ?_, rfl, rfl⟩
    show findUser (setUser db.users uid (fun u =>
      { u with username := uname })) uid = _
    simp only [findUser, setUser] at huser ⊢
    exact findByKey_setByKey_self huser rfl

/-- Witness for the amended C7: an email-only payload is rejected with
the immutability error leaving the datastore unchanged, and a
username-only payload ("bob", length 3) succeeds with the email kept. -/
theorem email_immutable_amended_witness :
    (runUserUpdate dbW 1 ⟨none, none, some "x@example.com"⟩).1 = dbW ∧
    (runUserUpdate dbW 1 ⟨none, none, some "x@example.com"⟩).2.isSome =
      true ∧
    runUserUpdate dbW 1 ⟨none, none, some "x@example.com"⟩ =
      (dbW, some "Email cannot be changed after registration") ∧
    (runUserUpdate dbW 1 ⟨some "bob", none, none⟩).2 = none ∧
    (∃ user2,
      findUser (runUserUpdate dbW 1 ⟨some "bob", none, none⟩).1.users 1 =
        some user2 ∧
      user2.username = "bob" ∧ user2.email = "alice@example.com") :=
  ⟨(email_immutable_amended.1 dbW 1 ⟨none, none, some "x@example.com"⟩
      rfl).1,
   (email_immutable_amended.1 dbW 1 ⟨none, none, some "x@example.com"⟩
      rfl).2,
   email_immutable_amended.2.1 dbW 1 ⟨none, none, some "x@example.com"⟩
     "x@example.com" rfl (fun u h => Option.noConfusion h),
   (email_immutable_amended.2.2 dbW 1 "bob"
      ⟨1, "alice", "alice@example.com", none⟩ (by decide) (by decide)).1,
   (email_immutable_amended.2.2 dbW 1 "bob"
      ⟨1, "alice", "alice@example.com", none⟩ (by decide) (by decide)).2⟩

/-! ## C8 — deletes of referenced entities are forbidden -/

/-- C8: deleting a Product referenced by an OrderItem, an Address
referenced by an Order, or a User owning an Order is rejected with the
corresponding conflict error; the transaction rolls back, the datastore
is unchanged and the entity still exists afterwards. -/
theorem delete_referenced_entities_forbidden :
    (∀ (db : DB) (pid : Nat) (p : Product) (item : OrderItem),
      findProduct db.products pid = some p →
      item ∈ db.order_items → item.product_id = pid →
      runTxn db (productRepositoryDelete db pid) =
        (db, some ("Cannot delete product that is referenced in existing orders." ++
          " Consider archiving instead.")) ∧
      findProduct ((runTxn db (productRepositoryDelete db pid)).1).products
        pid = some p) ∧
    (∀ (db : DB) (aid : Nat) (a : Address) (o : Order),
      findAddress db.addresses aid = some a →
      o ∈ db.orders → o.address_id = aid →
      runTxn db (addressRepositoryDelete db aid) =
        (db, some "Cannot delete address that is used in existing orders") ∧
      findAddress ((runTxn db (addressRepositoryDelete db aid)).1).addresses
        aid = some a) ∧
    (∀ (db : DB) (uid : Nat) (u : User) (o : Order),
      findUser db.users uid = some u →
      o ∈ db.orders → o.user_id = uid →
      runTxn db (userServiceDelete db uid) =
        (db, some "Cannot delete user with existing orders") ∧
      findUser ((runTxn db (userServiceDelete db uid)).1).users uid =
        some u) := by
  refine ⟨?_, ?_, ?_⟩
  · intro db pid p item hfind hmem hpid
    have hguard : (db.order_items.any (fun it => it.product_id == pid)) =
        true :=
      List.any_eq_true.mpr ⟨item, hmem, by simp [hpid]⟩
    have heval : productRepositoryDelete db pid =
        .error ("Cannot delete product that is referenced in existing orders." ++
          " Consider archiving instead.") := by
      unfold productRepositoryDelete
      simp only [hfind, hguard, if_true]
    rw [heval]
    exact ⟨rfl, hfind⟩
  · intro db aid a o hfind hmem haid
    have hguard : 0 < (db.orders.filter
        (fun o2 => o2.address_id == aid)).length := by
      have ho2 : o ∈ db.orders.filter (fun o2 => o2.address_id == aid) :=
        List.mem_filter.mpr ⟨hmem, by simp [haid]⟩
      exact List.length_pos.mpr (List.ne_nil_of_mem ho2)
    have heval : addressRepositoryDelete db aid =
        .error "Cannot delete address that is used in existing orders" := by
      unfold addressRepositoryDelete
      simp only [hfind]
      rw [if_pos hguard]
    rw [heval]
    exact ⟨rfl, hfind⟩
  · intro db uid u o hfind hmem huid
    have hguard : (db.orders.any (fun o2 => o2.user_id == uid)) = true :=
      List.any_eq_true.mpr ⟨o, hmem, by simp [huid]⟩
    have heval : userServiceDelete db uid =
        .error "Cannot delete user with existing orders" := by
      unfold userServiceDelete
      simp only [hfind, hguard, if_true]
    rw [heval]
    exact ⟨rfl, hfind⟩

/-- Witness for C8: in the concrete datastore the product, the address
and the user of the existing order cannot be deleted, and each is still
present afterwards. -/
theorem delete_referenced_entities_forbidden_witness :
    runTxn dbW (productRepositoryDelete dbW 1) =
      (dbW, some ("Cannot delete product that is referenced in existing orders." ++
        " Consider archiving instead.")) ∧
    findProduct dbW.products 1 = some ⟨1, "Widget", 1, 100, 1000⟩ ∧
    runTxn dbW (addressRepositoryDelete dbW 1) =
      (dbW, some "Cannot delete address that is used in existing orders") ∧
    findAddress dbW.addresses 1 =
      some ⟨1, 1, "Main St", "Town", none, "12345", "US", true⟩ ∧
    runTxn dbW (userServiceDelete dbW 1) =
      (dbW, some "Cannot delete user with existing orders") ∧
    findUser dbW.users 1 = some ⟨1, "alice", "alice@example.com", none⟩ :=
  ⟨(delete_referenced_entities_forbidden.1 dbW 1 ⟨1, "Widget", 1, 100, 1000⟩
      ⟨1, 1, 2, 1000⟩ (by decide) (by decide) (by decide)).1,
   (delete_referenced_entities_forbidden.1 dbW 1 ⟨1, "Widget", 1, 100, 1000⟩
      ⟨1, 1, 2, 1000⟩ (by decide) (by decide) (by decide)).2,
   (delete_referenced_entities_forbidden.2.1 dbW 1
      ⟨1, 1, "Main St", "Town", none, "12345", "US", true⟩ ⟨1, 1, 1⟩
      (by decide) (by decide) (by decide)).1,
   (delete_referenced_entities_forbidden.2.1 dbW 1
      ⟨1, 1, "Main St", "Town", none, "12345", "US", true⟩ ⟨1, 1, 1⟩
      (by decide) (by decide) (by decide)).2,
   (delete_referenced_entities_forbidden.2.2 dbW 1
      ⟨1, "alice", "alice@example.com", none⟩ ⟨1, 1, 1⟩
      (by decide) (by decide) (by decide)).1,
   (delete_referenced_entities_forbidden.2.2 dbW 1
      ⟨1, "alice", "alice@example.com", none⟩ ⟨1, 1, 1⟩
      (by decide) (by decide) (by decide)).2⟩

/-! ## C9 — price normalization at the store boundary -/

theorem quantize2_cents (c : Int) : quantize2 ⟨c, 2⟩ = c := by
  simp [quantize2]

theorem validateProductCreate_price (d : ProductCreateData)
    (v : ProductBaseV) (h : validateProductCreate d = .ok v) :
    v.price = quantize2 d.price := by
  simp only [validateProductCreate] at h
  split_ifs at h with h1 h2 h3 h4 h5 h6 h7
  injection h with h
  subst h
  rfl

theorem validateProductUpdateRest_price (d : ProductUpdateData)
    (lab : Option String) (v : ProductUpdateV)
    (h : validateProductUpdate.validateProductUpdateRest d lab = .ok v) :
    v.price = d.price.map quantize2 := by
  simp only [validateProductUpdate.validateProductUpdateRest] at h
  split_ifs at h with h1 h2 h3 h4 h5
  injection h with h
  subst h
  rfl

theorem validateProductUpdate_price (d : ProductUpdateData)
    (v : ProductUpdateV) (h : validateProductUpdate d = .ok v) :
    v.price = d.price.map quantize2 := by
  unfold validateProductUpdate at h
  cases hl : d.label with
  | none =>
    simp only [hl] at h
    exact validateProductUpdateRest_price d none v h
  | some s =>
    simp only [hl] at h
    split_ifs at h with h1 h2
    exact validateProductUpdateRest_price d (some (pyStrip s)) v h

/-- C9: a price entering the store as a decimal representation (the
result of `Decimal(str(v))` for a float, string or Decimal input) is
stored, on both product create and product update, as exactly
`quantize2` of the input — quantization to 2 fractional digits with
round-half-even, the default rounding of `Decimal.quantize` — and
re-quantizing an already-stored 2-digit value is the identity, so
repeated updates with the same input cause no representation drift. -/
theorem price_quantization_half_even :
    (∀ (d : ProductCreateData) (v : ProductBaseV) (db : DB) (newId : Nat)
       (db2 : DB),
      validateProductCreate d = .ok v →
      productRepositoryCreate db newId v = .ok db2 →
      ∃ p : Product, db2.products = db.products ++ [p] ∧
        p.price = quantize2 d.price) ∧
    (∀ (d : ProductUpdateData) (v : ProductUpdateV) (x : Dec) (db : DB)
       (pid : Nat) (db2 : DB) (p : Product),
      validateProductUpdate d = .ok v →
      d.price = some x →
      findProduct db.products pid = some p →
      productRepositoryUpdate db pid v = .ok db2 →
      ∃ p2, findProduct db2.products pid = some p2 ∧
        p2.price = quantize2 x) ∧
    (∀ c : Int, quantize2 ⟨quantize2 ⟨c, 2⟩, 2⟩ = quantize2 ⟨c, 2⟩) := by
  refine ⟨?_, ?_, fun c => quantize2_cents _⟩
  · intro d v db newId db2 hv hok
    unfold productRepositoryCreate at hok
    by_cases hp : v.price ≤ 0
    · rw [if_pos hp] at hok
      exact Except.noConfusion hok
    · rw [if_neg hp] at hok
      injection hok with hok
      subst hok
      refine ⟨_, rfl, ?_⟩
      show quantize2 ⟨v.price, 2⟩ = quantize2 d.price
      rw [quantize2_cents]
      exact validateProductCreate_price d v hv
  · intro d v x db pid db2 p hv hx hfind hok
    have hvp : v.price = some (quantize2 x) := by
      rw [validateProductUpdate_price d v hv, hx]
      rfl
    unfold productRepositoryUpdate at hok
    simp only [hfind, hvp] at hok
    by_cases hc : quantize2 x ≤ 0
    · simp only [if_pos hc] at hok
      exact Except.noConfusion hok
    · simp only [if_neg hc] at hok
      injection hok with hok
      subst hok
      refine ⟨applyProductUpdate { v with
        price := some (quantize2 { m := quantize2 x, e := 2 }) } p, ?_, ?_⟩
      · show findProduct (setProduct db.products pid _) pid = _
        simp only [findProduct, setProduct] at hfind ⊢
        exact findByKey_setByKey_self hfind rfl
      · show (applyProductUpdate _ p).price = quantize2 x
        simp only [applyProductUpdate, Option.getD_some]
        exact quantize2_cents _

/-- Witness for C9: creating with input price 2.675 stores 2.68 (half
up to the even digit), updating with input price 2.665 stores 2.66
(half down to the even digit), and 2-digit values re-quantize to
themselves. -/
theorem price_quantization_half_even_witness :
    validateProductCreate ⟨"Candle", 1, 10, ⟨2675, 3⟩⟩ =
      .ok ⟨"Candle", 1, 10, 268⟩ ∧
    productRepositoryCreate dbW 5 ⟨"Candle", 1, 10, 268⟩ =
      .ok ⟨dbW.users, dbW.addresses,
           dbW.products ++ [⟨5, "Candle", 1, 10, 268⟩],
           dbW.orders, dbW.order_items⟩ ∧
    (∃ p : Product,
      (DB.mk dbW.users dbW.addresses
        (dbW.products ++ [⟨5, "Candle", 1, 10, 268⟩])
        dbW.orders dbW.order_items).products = dbW.products ++ [p] ∧
      p.price = quantize2 ⟨2675, 3⟩) ∧
    quantize2 ⟨2675, 3⟩ = 268 ∧
    validateProductUpdate ⟨none, none, none, some ⟨2665, 3⟩⟩ =
      .ok ⟨none, none, none, some 266⟩ ∧
    (∃ p2,
      findProduct
        (DB.mk dbW.users dbW.addresses
          [⟨1, "Widget", 1, 100, 266⟩, ⟨2, "Gadget", 1, 5, 1500⟩]
          dbW.orders dbW.order_items).products 1 = some p2 ∧
      p2.price = quantize2 ⟨2665, 3⟩) ∧
    quantize2 ⟨2665, 3⟩ = 266 ∧
    quantize2 ⟨quantize2 ⟨268, 2⟩, 2⟩ = quantize2 ⟨268, 2⟩ :=
  ⟨by decide, by decide,
   price_quantization_half_even.1 ⟨"Candle", 1, 10, ⟨2675, 3⟩⟩
     ⟨"Candle", 1, 10, 268⟩ dbW 5
     ⟨dbW.users, dbW.addresses,
      dbW.products ++ [⟨5, "Candle", 1, 10, 268⟩],
      dbW.orders, dbW.order_items⟩ (by decide) (by decide),
   by decide, by decide,
   price_quantization_half_even.2.1 ⟨none, none, none, some ⟨2665, 3⟩⟩
     ⟨none, none, none, some 266⟩ ⟨2665, 3⟩ dbW 1
     ⟨dbW.users, dbW.addresses,
      [⟨1, "Widget", 1, 100, 266⟩, ⟨2, "Gadget", 1, 5, 1500⟩],
      dbW.orders, dbW.order_items⟩ ⟨1, "Widget", 1, 100, 1000⟩
     (by decide) (by decide) (by decide) (by decide),
   by decide,
   price_quantization_half_even.2.2 268⟩
